import Mathlib

/-!
# Shopify order-tracking service: formal model

Shallow embedding of `src/app.js` (order-lookup aggregation engine):
the two normalizers (REST shape from `searchOrdersByEmail`, graph shape
from `searchOrdersByPhone`), the pagination loop, the phone two-phase
lookup with its stable descending sort, the result cache, and the
`/get_orders` orchestrator.

Modelling conventions:
* Timestamps (`created_at` / `createdAt`) are modelled as `Nat`, the
  value of the JavaScript `Date` parse; ISO-8601 strings at a fixed
  timezone are order-isomorphic to these values, which is all the sort
  at app.js:233 observes.
* JavaScript values that may be `null`/`undefined` are `Option`s;
  the truthiness test of `x || d` on strings (app.js:112) also treats
  the empty string as falsy, which the embedding reproduces.
* Quantities are `Nat` (Shopify line-item quantities are non-negative
  integers); money amounts stay opaque `String`s, as the code never
  computes with them.
* The shipping address is an opaque passthrough, modelled as `Option
  String`.
-/

/-- Canonical tracking-info sub-record of an `OrderSummary`
(app.js:115-119 and app.js:245-251).  All three sub-fields are optional:
the code copies whatever the upstream record holds. -/
structure TrackingInfo where
  tracking_number : Option String
  tracking_company : Option String
  tracking_url : Option String
deriving DecidableEq, Repr

/-- Canonical line-item record `{title, quantity, price}`
(app.js:120-124 and app.js:252-256). -/
structure LineItemOut where
  title : String
  quantity : Nat
  price : String
deriving DecidableEq, Repr

/-- Canonical `OrderSummary`, the shape both strategies return
(app.js:108-125 and app.js:237-259).  Fields that only one variant
emits (`currency_code`, `customer_name`, `customer_email`) are `Option`s
left `none` by the other variant, matching the absent JS properties. -/
structure OrderSummary where
  order_number : String
  created_at : Nat
  total_price : String
  currency_code : Option String := none
  fulfillment_status : Option String
  items_count : Nat
  shipping_address : Option String
  tracking_info : Option TrackingInfo
  line_items : List LineItemOut
  customer_name : Option String := none
  customer_email : Option String := none
deriving DecidableEq, Repr

/-! ## REST shape (email strategy input, app.js:83-126) -/

/-- Raw REST line item, the fields app.js:113/120-124 reads. -/
structure RestLineItem where
  title : String
  quantity : Nat
  price : String
deriving DecidableEq, Repr

/-- Raw REST fulfillment entry, the fields app.js:116-118 reads. -/
structure RestFulfillment where
  tracking_number : Option String
  tracking_company : Option String
  tracking_url : Option String
deriving DecidableEq, Repr

/-- Raw REST order, the fields app.js:108-125 reads. -/
structure RestOrder where
  name : String
  created_at : Nat
  total_price : String
  fulfillment_status : Option String
  line_items : List RestLineItem
  shipping_address : Option String
  fulfillments : List RestFulfillment
deriving DecidableEq, Repr

/-- JavaScript `x || d` on an optional string field (app.js:112):
`null`/`undefined` and the empty string are falsy. -/
def jsOrString (x : Option String) (d : String) : String :=
  match x with
  | some s => if s = "" then d else s
  | none => d

/-- REST-shape normalizer: the body of the `allOrders.map` at
app.js:108-125. -/
def normalizeRestOrder (o : RestOrder) : OrderSummary :=
  { order_number := o.name
    created_at := o.created_at
    total_price := o.total_price
    currency_code := none
    fulfillment_status := some (jsOrString o.fulfillment_status "unfulfilled")
    items_count := o.line_items.foldl (fun sum item => sum + item.quantity) 0
    shipping_address := o.shipping_address
    tracking_info :=
      match o.fulfillments with
      | [] => none
      | f :: _ => some ⟨f.tracking_number, f.tracking_company, f.tracking_url⟩
    line_items := o.line_items.map (fun item => ⟨item.title, item.quantity, item.price⟩)
    customer_name := none
    customer_email := none }

/-! ## Graph shape (phone strategy input, app.js:136-260) -/

/-- Customer node from the `customers` graph query (app.js:138-150). -/
structure GraphCustomer where
  id : String
  displayName : String
  email : Option String
deriving DecidableEq, Repr

/-- Line-item node from the nested `lineItems` connection
(app.js:179-192); `price` is `originalUnitPriceSet.shopMoney.amount`. -/
structure GraphLineItem where
  name : String
  quantity : Nat
  price : String
deriving DecidableEq, Repr

/-- One entry of a fulfillment's `trackingInfo` list (app.js:201-207). -/
structure GraphTrackingEntry where
  company : Option String
  number : Option String
  url : Option String
deriving DecidableEq, Repr

/-- Fulfillment node from the graph query (app.js:201-207). -/
structure GraphFulfillment where
  trackingInfo : List GraphTrackingEntry
deriving DecidableEq, Repr

/-- Order node from the `customer.orders` graph query (app.js:163-213);
`lineItems` stands for the edge list, `totalAmount`/`totalCurrency` for
`totalPriceSet.shopMoney.{amount,currencyCode}`. -/
structure GraphOrder where
  name : String
  createdAt : Nat
  totalAmount : String
  totalCurrency : String
  displayFulfillmentStatus : Option String
  lineItems : List GraphLineItem
  shippingAddress : Option String
  fulfillments : List GraphFulfillment
deriving DecidableEq, Repr

/-- Graph order after the spread at app.js:224-228 attaches the parent
customer's `displayName`/`email`. -/
structure EnrichedOrder where
  ord : GraphOrder
  customerName : String
  customerEmail : Option String
deriving DecidableEq, Repr

/-- Graph-shape normalizer: the body of the `allOrders.map` at
app.js:237-259.  Note there is no `|| 'unfulfilled'` default here:
`displayFulfillmentStatus` is copied verbatim (app.js:242). -/
def normalizeGraphOrder (e : EnrichedOrder) : OrderSummary :=
  { order_number := e.ord.name
    created_at := e.ord.createdAt
    total_price := e.ord.totalAmount
    currency_code := some e.ord.totalCurrency
    fulfillment_status := e.ord.displayFulfillmentStatus
    items_count := e.ord.lineItems.foldl (fun sum item => sum + item.quantity) 0
    shipping_address := e.ord.shippingAddress
    tracking_info :=
      match e.ord.fulfillments with
      | [] => none
      | f :: _ =>
        match f.trackingInfo with
        | [] => none
        | t :: _ => some ⟨t.number, t.company, t.url⟩
    line_items := e.ord.lineItems.map (fun item => ⟨item.name, item.quantity, item.price⟩)
    customer_name := some e.customerName
    customer_email := e.customerEmail }

/-! ## Email strategy: pagination loop (app.js:83-126)

The upstream REST endpoint is modelled as a partial function from URL
to response; `none` is a failed fetch (non-2xx / network error), which
the loop turns into failure of the whole lookup (app.js:102-105).  The
`Link` response header is modelled structurally as a list of
`(url, rel)` entries; `extractNextUrl` embeds the effect of the regex
`/<([^>]+)>;\s*rel="next"/` at app.js:97 on a well-formed header: the
first entry whose relation is `"next"` supplies the continuation URL,
and no such entry means no token. -/

/-- One `<url>; rel="relation"` entry of a `Link` response header. -/
structure LinkEntry where
  url : String
  rel : String
deriving DecidableEq, Repr

/-- One page served by the REST orders endpoint: the `orders` array of
the body plus the structured `Link` header. -/
structure PageResponse where
  orders : List RestOrder
  linkEntries : List LinkEntry
deriving DecidableEq, Repr

/-- The rel="next" continuation URL of a `Link` header (app.js:94-101):
`none` when the header has no next relation. -/
def extractNextUrl (entries : List LinkEntry) : Option String :=
  (entries.find? (fun e => e.rel = "next")).map (fun e => e.url)

/-- The initial query of the email strategy (app.js:85):
`{status: any, email, limit: 250}`.  (`encodeURIComponent` is modelled
as the identity; nothing downstream inspects the URL's characters.) -/
def initialEmailUrl (email : String) : String :=
  "/orders.json?status=any&email=" ++ email ++ "&limit=250"

/-- The `while (nextPageUrl)` loop of app.js:87-106, instrumented with
the number of page fetches performed.  `fuel` bounds the recursion so
the model is total; the source loop is unbounded, and every theorem
below supplies enough fuel for the chain it traverses.  Returns `none`
on a failed fetch (the source throws, discarding partial results) or on
fuel exhaustion. -/
def fetchAllOrders (server : String → Option PageResponse) :
    Nat → Option String → Option (List RestOrder × Nat)
  | _, none => some ([], 0)
  | 0, some _ => none
  | fuel + 1, some url =>
    match server url with
    | none => none
    | some resp =>
      match fetchAllOrders server fuel (extractNextUrl resp.linkEntries) with
      | none => none
      | some (rest, n) => some (resp.orders ++ rest, n + 1)

/-- `searchOrdersByEmail` (app.js:83-126): accumulate all pages from the
initial query, then normalize.  The second component counts page
fetches. -/
def searchOrdersByEmail (server : String → Option PageResponse) (fuel : Nat)
    (email : String) : Option (List OrderSummary × Nat) :=
  (fetchAllOrders server fuel (some (initialEmailUrl email))).map
    (fun r => (r.1.map normalizeRestOrder, r.2))

/-! ## Phone strategy (app.js:136-260) -/

/-- `phone.replace(/\D/g, '')` (app.js:152): strip every non-digit. -/
def normalizePhone (phone : String) : String :=
  String.mk (phone.toList.filter Char.isDigit)

/-- Server-side execution of the per-customer order query
(app.js:163-213): the query requests `orders(first: 250)`,
`lineItems(first: 10)` and `fulfillments(first: 1)`, so the response
carries at most 250 orders, each with at most its first 10 line items
and first fulfillment. -/
def runOrderQuery (fullOrders : List GraphOrder) : List GraphOrder :=
  (fullOrders.take 250).map
    (fun o => { o with lineItems := o.lineItems.take 10,
                       fulfillments := o.fulfillments.take 1 })

/-- The upstream state a phone lookup queries: each customer matching
the phone, paired with that customer's full order history. -/
abbrev PhoneStore := List (GraphCustomer × List GraphOrder)

/-- Phase 1 + phase 2 aggregation (app.js:157-231): the customers query
requests `customers(first: 250)`; for each matched customer in order,
fetch its orders and attach `customerName`/`customerEmail`
(app.js:224-228), concatenating in customer-then-order order. -/
def aggregateOrders (store : PhoneStore) : List EnrichedOrder :=
  (List.take 250 store).flatMap
    (fun ce => (runOrderQuery ce.2).map
      (fun o => ⟨o, ce.1.displayName, ce.1.email⟩))

/-- Insertion step of the descending-by-`createdAt` sort: `x` is placed
before the first element whose key is `≤` its own, so earlier elements
with an equal key stay in front — the stable order ECMAScript
guarantees for `Array.prototype.sort` with the comparator
`(a, b) => new Date(b.createdAt) - new Date(a.createdAt)`
(app.js:233). -/
def insertDesc (x : EnrichedOrder) : List EnrichedOrder → List EnrichedOrder
  | [] => [x]
  | y :: ys =>
    if x.ord.createdAt < y.ord.createdAt then y :: insertDesc x ys
    else x :: y :: ys

/-- Stable descending sort by `createdAt`, the `allOrders.sort` at
app.js:233. -/
def sortOrdersDesc : List EnrichedOrder → List EnrichedOrder
  | [] => []
  | x :: xs => insertDesc x (sortOrdersDesc xs)

/-- `searchOrdersByPhone` (app.js:136-260): aggregate per customer,
sort descending by creation time, then normalize. -/
def searchOrdersByPhone (store : PhoneStore) : List OrderSummary :=
  (sortOrdersDesc (aggregateOrders store)).map normalizeGraphOrder

/-! ## Result cache (app.js:36, app.js:269-288)

The source configures `new NodeCache({ stdTTL: 3600, maxKeys: 1000 })`;
the library implementing `get`/`set` is a dependency, not part of this
repository's sources.  Modelled from the spec: the store keeps at most
1000 distinct keys, and a set that would create a 1001st key evicts the
oldest entry by insertion time to admit the new one (spec §4.5); TTL
expiry is not modelled, as no claim depends on the passage of time.
The state is the insertion-ordered list of `(key, value)` entries,
oldest first. -/

/-- Cache state: insertion-ordered association list, oldest first. -/
abbrev CacheState := List (String × List OrderSummary)

/-- The cold cache at process start. -/
def cacheEmpty : CacheState := []

/-- The capacity configured at app.js:36 (`maxKeys: 1000`). -/
def cacheMaxKeys : Nat := 1000

/-- `cache.get(key)`: the value stored under `key`, if any. -/
def cacheGet (c : CacheState) (k : String) : Option (List OrderSummary) :=
  (List.find? (fun e => e.1 = k) c).map (fun e => e.2)

/-- Modelled from the spec: `cache.set(key, value)` under the §4.5
policy — overwrite in place when the key exists, append when below
capacity, otherwise evict the oldest entry (the head) and append. -/
def cacheSet (c : CacheState) (k : String) (v : List OrderSummary) : CacheState :=
  if List.any c (fun e => e.1 = k) then
    List.map (fun e => if e.1 = k then (k, v) else e) c
  else if List.length c < cacheMaxKeys then
    c ++ [(k, v)]
  else
    List.tail c ++ [(k, v)]

/-! ## `/get_orders` orchestrator (app.js:262-297) -/

/-- The three responses the route can produce: `ok` serializes the
order list (HTTP 200), `badRequest` is the 400 of app.js:281,
`serverError` the 500 of app.js:295. -/
inductive HttpResponse where
  | ok (orders : List OrderSummary)
  | badRequest
  | serverError
deriving DecidableEq, Repr

/-- Observable outcome of one `/get_orders` request: the response, the
cache state afterwards, and whether an upstream lookup was performed. -/
structure HandlerResult where
  response : HttpResponse
  cache : CacheState
  upstreamCalled : Bool

/-- The cache key of app.js:266: `` `${contact_type}-${contact_info}` ``. -/
def cacheKey (contactType contactInfo : String) : String :=
  contactType ++ "-" ++ contactInfo

/-- The `/get_orders` route (app.js:262-297).  The two strategies are
passed as functions from contact info to an optional result (`none` is
a thrown `UpstreamError`, caught at app.js:293-296).  Mirrors the
source's order of checks: cache lookup first (app.js:269), then the
`contact_type` dispatch (app.js:276-282); on success the result is
cached only when it has at most 1000 orders (app.js:286-288). -/
def handleGetOrders (c : CacheState) (contactType contactInfo : String)
    (emailStrategy phoneStrategy : String → Option (List OrderSummary)) :
    HandlerResult :=
  let key := cacheKey contactType contactInfo
  match cacheGet c key with
  | some cached => ⟨HttpResponse.ok cached, c, false⟩
  | none =>
    if contactType = "email" then
      match emailStrategy contactInfo with
      | some orders =>
        ⟨HttpResponse.ok orders,
         if orders.length ≤ 1000 then cacheSet c key orders else c, true⟩
      | none => ⟨HttpResponse.serverError, c, true⟩
    else if contactType = "phone" then
      match phoneStrategy contactInfo with
      | some orders =>
        ⟨HttpResponse.ok orders,
         if orders.length ≤ 1000 then cacheSet c key orders else c, true⟩
      | none => ⟨HttpResponse.serverError, c, true⟩
    else
      ⟨HttpResponse.badRequest, c, false⟩

/-! ## General lemmas -/

/-- The `reduce((sum, item) => sum + item.quantity, 0)` pattern
(app.js:113, app.js:243) computes the sum of the mapped values. -/
theorem foldl_add_eq_sum_map {α : Type} (f : α → Nat) (l : List α) :
    ∀ a : Nat, l.foldl (fun s x => s + f x) a = a + (l.map f).sum := by
  induction l with
  | nil => intro a; simp
  | cons x xs ih => intro a; simp [ih, List.sum_cons]; omega

/-- The REST normalizer satisfies the `items_count` invariant. -/
theorem normalizeRestOrder_items_count (o : RestOrder) :
    (normalizeRestOrder o).items_count =
      ((normalizeRestOrder o).line_items.map (fun li => li.quantity)).sum := by
  simp [normalizeRestOrder, foldl_add_eq_sum_map, List.map_map, Function.comp_def]

/-- The graph normalizer satisfies the `items_count` invariant. -/
theorem normalizeGraphOrder_items_count (e : EnrichedOrder) :
    (normalizeGraphOrder e).items_count =
      ((normalizeGraphOrder e).line_items.map (fun li => li.quantity)).sum := by
  simp [normalizeGraphOrder, foldl_add_eq_sum_map, List.map_map, Function.comp_def]

/-! ## C1: `items_count` invariant -/

/-- C1: for every order returned by either lookup strategy (email or
phone), the `items_count` field of the `OrderSummary` equals the sum of
the `quantity` fields over its `line_items` sequence. -/
theorem items_count_eq_sum_quantities :
    (∀ (server : String → Option PageResponse) (fuel : Nat) (email : String)
      (res : List OrderSummary) (n : Nat),
      searchOrdersByEmail server fuel email = some (res, n) →
      ∀ s ∈ res, s.items_count = (s.line_items.map (fun li => li.quantity)).sum) ∧
    (∀ (store : PhoneStore) (s : OrderSummary), s ∈ searchOrdersByPhone store →
      s.items_count = (s.line_items.map (fun li => li.quantity)).sum) := by
  constructor
  · intro server fuel email res n h s hs
    unfold searchOrdersByEmail at h
    cases hfa : fetchAllOrders server fuel (some (initialEmailUrl email)) with
    | none => rw [hfa] at h; simp at h
    | some r =>
      rw [hfa] at h
      simp only [Option.map_some', Option.some.injEq, Prod.mk.injEq] at h
      rw [← h.1] at hs
      rcases List.mem_map.mp hs with ⟨o, _, rfl⟩
      exact normalizeRestOrder_items_count o
  · intro store s hs
    unfold searchOrdersByPhone at hs
    rcases List.mem_map.mp hs with ⟨e, _, rfl⟩
    exact normalizeGraphOrder_items_count e

/-- Concrete REST order used by witnesses: two line items with
quantities 2 and 3, no fulfillment status, no fulfillments. -/
def sampleRestOrder : RestOrder :=
  { name := "#1001", created_at := 5, total_price := "10.00",
    fulfillment_status := none,
    line_items := [⟨"A", 2, "3.00"⟩, ⟨"B", 3, "4.00"⟩],
    shipping_address := none, fulfillments := [] }

/-- Concrete one-page REST server used by witnesses: answers the
initial query for `a@b.c` with one order and no continuation. -/
def sampleServer : String → Option PageResponse :=
  fun url =>
    if url = initialEmailUrl "a@b.c" then some ⟨[sampleRestOrder], []⟩ else none

/-- Witness for C1: the invariant holds on a concrete one-page email
lookup returning `sampleRestOrder`. -/
theorem items_count_eq_sum_quantities_witness :
    (normalizeRestOrder sampleRestOrder).items_count =
      ((normalizeRestOrder sampleRestOrder).line_items.map
        (fun li => li.quantity)).sum :=
  items_count_eq_sum_quantities.1 sampleServer 1 "a@b.c"
    [normalizeRestOrder sampleRestOrder] 1 (by decide)
    (normalizeRestOrder sampleRestOrder) (List.mem_cons_self _ _)

/-! ## C8: `fulfillment_status` defaulting -/

/-- Concrete graph order with no upstream fulfillment status and no
fulfillments, used by the C8/C9 theorems. -/
def noStatusOrder : GraphOrder :=
  { name := "#2001", createdAt := 7, totalAmount := "5.00",
    totalCurrency := "USD", displayFulfillmentStatus := none,
    lineItems := [], shippingAddress := none, fulfillments := [] }

/-- Concrete phone-lookup store: one customer owning `noStatusOrder`. -/
def noStatusStore : PhoneStore :=
  [(⟨"gid1", "Ann Lee", some "ann@x.y"⟩, [noStatusOrder])]

/-- C8 counterexample: the phone (graph) normalizer applies no default —
an order whose upstream `displayFulfillmentStatus` is absent comes back
from `searchOrdersByPhone` with `fulfillment_status` absent, not
`"unfulfilled"`; and the REST normalizer maps a present-but-empty
upstream status to `"unfulfilled"` rather than echoing it, because `||`
treats the empty string as falsy. -/
theorem fulfillment_status_default_cex :
    ((searchOrdersByPhone noStatusStore).map (fun s => s.fulfillment_status)
        = [none]
      ∧ (none : Option String) ≠ some "unfulfilled")
    ∧ ((normalizeRestOrder
          { sampleRestOrder with fulfillment_status := some "" }).fulfillment_status
        = some "unfulfilled"
      ∧ (some "unfulfilled" : Option String) ≠ some "") := by
  refine ⟨⟨?_, ?_⟩, ?_, ?_⟩ <;> decide

/-- C8 (amended): the REST normalizer maps an absent (or empty-string)
upstream `fulfillment_status` to `"unfulfilled"` and echoes a present
non-empty one; the graph normalizer copies `displayFulfillmentStatus`
verbatim, applying no default. -/
theorem fulfillment_status_policy :
    (∀ o : RestOrder, o.fulfillment_status = none →
      (normalizeRestOrder o).fulfillment_status = some "unfulfilled") ∧
    (∀ (o : RestOrder) (s : String), o.fulfillment_status = some s → s ≠ "" →
      (normalizeRestOrder o).fulfillment_status = some s) ∧
    (∀ e : EnrichedOrder,
      (normalizeGraphOrder e).fulfillment_status
        = e.ord.displayFulfillmentStatus) := by
  refine ⟨?_, ?_, ?_⟩
  · intro o h; simp [normalizeRestOrder, jsOrString, h]
  · intro o s h hne; simp [normalizeRestOrder, jsOrString, h, hne]
  · intro e; rfl

/-- Witness for C8 (amended) at concrete orders: an absent REST status,
a present non-empty REST status, and a graph order. -/
theorem fulfillment_status_policy_witness :
    (normalizeRestOrder sampleRestOrder).fulfillment_status
        = some "unfulfilled" ∧
    (normalizeRestOrder
        { sampleRestOrder with
            fulfillment_status := some "shipped" }).fulfillment_status
      = some "shipped" ∧
    (normalizeGraphOrder ⟨noStatusOrder, "Ann Lee", none⟩).fulfillment_status
      = noStatusOrder.displayFulfillmentStatus :=
  ⟨fulfillment_status_policy.1 sampleRestOrder rfl,
   fulfillment_status_policy.2.1 _ "shipped" rfl (by decide),
   fulfillment_status_policy.2.2 _⟩

/-! ## C9: `tracking_info` policy -/

/-- Concrete REST order with one fulfillment whose tracking URL is
absent. -/
def fulfilledRestOrder : RestOrder :=
  { sampleRestOrder with fulfillments := [⟨some "TN1", some "UPS", none⟩] }

/-- C9: both normalizers yield `tracking_info = null` for an order with
zero fulfillments; the REST normalizer yields an object (never null)
whenever the fulfillments list is non-empty, copying the first
fulfillment's number/company/url with null sub-fields when absent; the
graph normalizer yields a non-null `tracking_info` exactly when both the
fulfillments list and the first fulfillment's tracking-info list are
non-empty. -/
theorem tracking_info_policy :
    (∀ o : RestOrder, o.fulfillments = [] →
      (normalizeRestOrder o).tracking_info = none) ∧
    (∀ e : EnrichedOrder, e.ord.fulfillments = [] →
      (normalizeGraphOrder e).tracking_info = none) ∧
    (∀ (o : RestOrder) (f : RestFulfillment) (fs : List RestFulfillment),
      o.fulfillments = f :: fs →
      (normalizeRestOrder o).tracking_info
        = some ⟨f.tracking_number, f.tracking_company, f.tracking_url⟩) ∧
    (∀ e : EnrichedOrder,
      (normalizeGraphOrder e).tracking_info.isSome = true ↔
        ∃ f fs t ts, e.ord.fulfillments = f :: fs ∧ f.trackingInfo = t :: ts) := by
  refine ⟨?_, ?_, ?_, ?_⟩
  · intro o h; simp [normalizeRestOrder, h]
  · intro e h; simp [normalizeGraphOrder, h]
  · intro o f fs h; simp [normalizeRestOrder, h]
  · intro e
    constructor
    · intro h
      rcases hf : e.ord.fulfillments with _ | ⟨f, fs⟩
      · simp [normalizeGraphOrder, hf] at h
      · rcases ht : f.trackingInfo with _ | ⟨t, ts⟩
        · simp [normalizeGraphOrder, hf, ht] at h
        · exact ⟨f, fs, t, ts, rfl, ht⟩
    · rintro ⟨f, fs, t, ts, hf, ht⟩
      simp [normalizeGraphOrder, hf, ht]

/-- Witness for C9 at concrete orders: a REST and a graph order without
fulfillments, and a REST order with one fulfillment lacking a tracking
URL. -/
theorem tracking_info_policy_witness :
    (normalizeRestOrder sampleRestOrder).tracking_info = none ∧
    (normalizeGraphOrder ⟨noStatusOrder, "Ann Lee", none⟩).tracking_info
      = none ∧
    (normalizeRestOrder fulfilledRestOrder).tracking_info
      = some ⟨some "TN1", some "UPS", none⟩ :=
  ⟨tracking_info_policy.1 sampleRestOrder rfl,
   tracking_info_policy.2.1 _ rfl,
   tracking_info_policy.2.2.1 fulfilledRestOrder
     ⟨some "TN1", some "UPS", none⟩ [] rfl⟩

/-! ## C5: phone results sorted descending, stably -/

/-- Membership is invariant under `insertDesc`. -/
theorem mem_insertDesc {z x : EnrichedOrder} {l : List EnrichedOrder} :
    z ∈ insertDesc x l ↔ z = x ∨ z ∈ l := by
  induction l with
  | nil => simp [insertDesc]
  | cons y ys ih =>
    rw [insertDesc]
    by_cases hc : x.ord.createdAt < y.ord.createdAt
    · rw [if_pos hc, List.mem_cons, ih, List.mem_cons]
      tauto
    · rw [if_neg hc, List.mem_cons, List.mem_cons]

/-- `insertDesc` preserves the descending-by-`createdAt` ordering. -/
theorem insertDesc_pairwise {x : EnrichedOrder} {l : List EnrichedOrder}
    (h : l.Pairwise (fun a b => b.ord.createdAt ≤ a.ord.createdAt)) :
    (insertDesc x l).Pairwise
      (fun a b => b.ord.createdAt ≤ a.ord.createdAt) := by
  induction l with
  | nil => simp [insertDesc]
  | cons y ys ih =>
    rcases List.pairwise_cons.mp h with ⟨hy, hys⟩
    rw [insertDesc]
    by_cases hc : x.ord.createdAt < y.ord.createdAt
    · rw [if_pos hc]
      refine List.pairwise_cons.mpr ⟨?_, ih hys⟩
      intro z hz
      rcases mem_insertDesc.mp hz with rfl | hz
      · exact Nat.le_of_lt hc
      · exact hy z hz
    · rw [if_neg hc]
      refine List.pairwise_cons.mpr ⟨?_, h⟩
      intro z hz
      rcases List.mem_cons.mp hz with rfl | hz
      · exact Nat.le_of_not_lt hc
      · exact Nat.le_trans (hy z hz) (Nat.le_of_not_lt hc)

/-- `sortOrdersDesc` sorts descending by `createdAt`. -/
theorem sortOrdersDesc_pairwise (l : List EnrichedOrder) :
    (sortOrdersDesc l).Pairwise
      (fun a b => b.ord.createdAt ≤ a.ord.createdAt) := by
  induction l with
  | nil => exact List.Pairwise.nil
  | cons x xs ih => exact insertDesc_pairwise ih

/-- Stability of the insertion step: the elements `insertDesc` passes
over all have a strictly larger key than `x`, so restricting to any one
timestamp puts `x` first among its ties. -/
theorem filter_insertDesc (t : Nat) (x : EnrichedOrder)
    (l : List EnrichedOrder) :
    (insertDesc x l).filter (fun e => e.ord.createdAt = t)
      = if x.ord.createdAt = t
          then x :: l.filter (fun e => e.ord.createdAt = t)
          else l.filter (fun e => e.ord.createdAt = t) := by
  induction l with
  | nil =>
    by_cases hx : x.ord.createdAt = t <;>
      simp [insertDesc, List.filter_cons, hx]
  | cons y ys ih =>
    rw [insertDesc]
    by_cases hc : x.ord.createdAt < y.ord.createdAt
    · rw [if_pos hc]
      by_cases hy : y.ord.createdAt = t
      · have hx : ¬ x.ord.createdAt = t := by omega
        simp [List.filter_cons, hy, hx, ih]
      · simp [List.filter_cons, hy, ih]
    · rw [if_neg hc]
      by_cases hx : x.ord.createdAt = t <;>
        simp [List.filter_cons, hx]

/-- Stability of the sort: restricted to any one timestamp, the sorted
list keeps the input's relative order. -/
theorem filter_sortOrdersDesc (t : Nat) (l : List EnrichedOrder) :
    (sortOrdersDesc l).filter (fun e => e.ord.createdAt = t)
      = l.filter (fun e => e.ord.createdAt = t) := by
  induction l with
  | nil => rfl
  | cons x xs ih =>
    rw [sortOrdersDesc, filter_insertDesc]
    by_cases hx : x.ord.createdAt = t <;>
      simp [List.filter_cons, hx, ih]

/-- `filter` by timestamp commutes with the graph normalizer, which
preserves `createdAt`. -/
theorem filter_created_at_map_normalize (t : Nat) (l : List EnrichedOrder) :
    (l.map normalizeGraphOrder).filter (fun s => s.created_at = t)
      = (l.filter (fun e => e.ord.createdAt = t)).map normalizeGraphOrder := by
  induction l with
  | nil => rfl
  | cons x xs ih =>
    by_cases hx : x.ord.createdAt = t <;>
      simp [List.filter_cons, normalizeGraphOrder, hx, ih]

/-- C5: every phone-lookup result list is sorted in descending order of
`created_at`, and the sort is stable — restricted to any one timestamp,
the output keeps the relative customer-then-order aggregation order. -/
theorem phone_results_sorted_desc_stable :
    ∀ store : PhoneStore,
      ((searchOrdersByPhone store).Pairwise
        (fun a b => b.created_at ≤ a.created_at)) ∧
      (∀ t : Nat,
        (searchOrdersByPhone store).filter (fun s => s.created_at = t)
          = ((aggregateOrders store).filter
              (fun e => e.ord.createdAt = t)).map normalizeGraphOrder) := by
  intro store
  constructor
  · unfold searchOrdersByPhone
    exact List.Pairwise.map normalizeGraphOrder (fun a b h => h)
      (sortOrdersDesc_pairwise (aggregateOrders store))
  · intro t
    unfold searchOrdersByPhone
    rw [filter_created_at_map_normalize, filter_sortOrdersDesc]

/-- Concrete store matching the spec's example: customer A with orders
at times 1 and 3, customer B with an order at time 2. -/
def exampleStore : PhoneStore :=
  [(⟨"gidA", "A", none⟩,
    [{ noStatusOrder with name := "#A1", createdAt := 1 },
     { noStatusOrder with name := "#A3", createdAt := 3 }]),
   (⟨"gidB", "B", none⟩,
    [{ noStatusOrder with name := "#B2", createdAt := 2 }])]

/-- The spec's worked example: customers A (orders at T1, T3) and B
(order at T2) come back in the order [T3, T2, T1]. -/
theorem phone_example_ordering :
    (searchOrdersByPhone exampleStore).map (fun s => s.created_at)
      = [3, 2, 1] := by decide

/-! ## C2: exhaustive pagination in the email strategy -/

/-- The loop of app.js:87-106 on an n-page chain: started at page `i`
of a server whose page `i` links to page `i + 1` for `i + 1 < n` and
carries no next-relation on the last page, it returns the concatenation
of pages `i..n-1` in order, in `n - i` fetches. -/
theorem fetchAllOrders_chain
    (server : String → Option PageResponse) (urls : Nat → String)
    (pages : Nat → List RestOrder) (n : Nat)
    (hserver : ∀ i, i < n → server (urls i)
      = some ⟨pages i,
              if i + 1 < n then [⟨urls (i + 1), "next"⟩] else []⟩) :
    ∀ fuel i, i < n → n - i ≤ fuel →
      fetchAllOrders server fuel (some (urls i))
        = some (((List.range (n - i)).map (fun j => pages (i + j))).flatten,
                n - i) := by
  intro fuel
  induction fuel with
  | zero => intro i hi hle; omega
  | succ fuel ih =>
    intro i hi hle
    rw [fetchAllOrders, hserver i hi]
    by_cases hnext : i + 1 < n
    · rw [if_pos hnext]
      dsimp only
      have hx : extractNextUrl [⟨urls (i + 1), "next"⟩] = some (urls (i + 1)) := by
        simp [extractNextUrl]
      rw [hx, ih (i + 1) hnext (by omega)]
      dsimp only
      have hsplit : (List.range (n - i)).map (fun j => pages (i + j))
          = pages i
            :: (List.range (n - (i + 1))).map (fun j => pages (i + 1 + j)) := by
        have hk : n - i = (n - (i + 1)) + 1 := by omega
        rw [hk, List.range_succ_eq_map, List.map_cons, List.map_map]
        refine congrArg (fun l => pages (i + 0) :: l) ?_
        refine List.map_congr_left ?_
        intro j _
        show pages (i + (j + 1)) = pages (i + 1 + j)
        refine congrArg pages (by omega)
      rw [hsplit, List.flatten_cons]
      have hcount : (n - (i + 1)) + 1 = n - i := by omega
      rw [hcount]
    · rw [if_neg hnext]
      dsimp only
      have hnone : ∀ f, fetchAllOrders server f none = some ([], 0) := by
        intro f; cases f <;> rfl
      rw [show extractNextUrl [] = none from rfl, hnone fuel]
      have h1 : n - i = 1 := by omega
      simp [h1, show List.range 1 = [0] from rfl]

/-- C2: the email strategy repeatedly fetches pages starting from the
initial query, follows the rel="next" continuation of the link header
until absent, and returns the concatenation of all pages' orders in
page order; on `n` pages terminating at page `n`, exactly `n` fetches
are made. -/
theorem email_pagination_exhaustive :
    ∀ (server : String → Option PageResponse) (urls : Nat → String)
      (pages : Nat → List RestOrder) (n fuel : Nat) (email : String),
      0 < n → n ≤ fuel → urls 0 = initialEmailUrl email →
      (∀ i, i < n → server (urls i)
        = some ⟨pages i,
                if i + 1 < n then [⟨urls (i + 1), "next"⟩] else []⟩) →
      searchOrdersByEmail server fuel email
        = some ((((List.range n).map pages).flatten).map normalizeRestOrder,
                n) := by
  intro server urls pages n fuel email hn hfuel h0 hserver
  unfold searchOrdersByEmail
  rw [← h0, fetchAllOrders_chain server urls pages n hserver fuel 0 hn
    (by omega)]
  simp

/-- Concrete three-page chain: continuation URLs for pages 1 and 2. -/
def wUrls : Nat → String :=
  fun i => match i with
  | 0 => initialEmailUrl "w@x.y"
  | 1 => "/orders.json?page_info=u1"
  | 2 => "/orders.json?page_info=u2"
  | _ + 3 => "unused"

/-- Concrete page contents: one order per page, tagged by its page. -/
def wPages : Nat → List RestOrder :=
  fun i => [{ sampleRestOrder with created_at := i }]

/-- Concrete three-page server: pages 0 and 1 link onward, page 2 ends
the chain. -/
def wServer : String → Option PageResponse :=
  fun url =>
    if url = wUrls 0 then some ⟨wPages 0, [⟨wUrls 1, "next"⟩]⟩
    else if url = wUrls 1 then some ⟨wPages 1, [⟨wUrls 2, "next"⟩]⟩
    else if url = wUrls 2 then some ⟨wPages 2, []⟩
    else none

/-- Witness for C2: the three-page chain is drained in exactly three
fetches, returning all three pages' orders in page order. -/
theorem email_pagination_exhaustive_witness :
    searchOrdersByEmail wServer 3 "w@x.y"
      = some ((((List.range 3).map wPages).flatten).map normalizeRestOrder,
              3) :=
  email_pagination_exhaustive wServer wUrls wPages 3 3 "w@x.y"
    (by decide) (by decide) rfl (by decide)

/-! ## C3: cache capacity and eviction -/

/-- A `cacheSet` never grows the store past `cacheMaxKeys`. -/
theorem cacheSet_length_le (c : CacheState) (k : String)
    (v : List OrderSummary) (h : c.length ≤ cacheMaxKeys) :
    (cacheSet c k v).length ≤ cacheMaxKeys := by
  unfold cacheSet
  split_ifs with h1 h2
  · simpa using h
  · simpa using h2
  · simp only [List.length_append, List.length_tail, List.length_cons,
      List.length_nil]
    unfold cacheMaxKeys at h ⊢
    omega

/-- When every key of `l` differs from `k`, a lookup for `k` skips past
`l`. -/
theorem cacheGet_append_single (l : CacheState) (k : String)
    (v : List OrderSummary) (h : ∀ e ∈ l, e.1 ≠ k) :
    cacheGet (l ++ [(k, v)]) k = some v := by
  induction l with
  | nil => simp [cacheGet]
  | cons e es ih =>
    have he : e.1 ≠ k := h e (List.mem_cons_self e es)
    have hes : ∀ x ∈ es, x.1 ≠ k := fun x hx => h x (List.mem_cons_of_mem e hx)
    rw [List.cons_append]
    unfold cacheGet at ih ⊢
    rw [List.find?_cons_of_neg _ (by simpa using he)]
    exact ih hes

/-- C3 (modelled from the spec, §4.5 eviction policy): the cache never
retains more than 1000 distinct keys, and a set of a 1001st distinct
key when the store is full evicts exactly the oldest entry by insertion
time (the head), keeps every other entry, admits the new one, and
leaves the key count at 1000. -/
theorem cache_capacity_evicts_oldest :
    (∀ ops : List (String × List OrderSummary),
      (ops.foldl (fun c kv => cacheSet c kv.1 kv.2) cacheEmpty).length
        ≤ cacheMaxKeys) ∧
    (∀ (c : CacheState) (k : String) (v : List OrderSummary),
      c.length = cacheMaxKeys → (∀ e ∈ c, e.1 ≠ k) →
      cacheSet c k v = c.tail ++ [(k, v)]
        ∧ (cacheSet c k v).length = cacheMaxKeys
        ∧ cacheGet (cacheSet c k v) k = some v) := by
  constructor
  · have hgen : ∀ (ops : List (String × List OrderSummary)) (c : CacheState),
        c.length ≤ cacheMaxKeys →
        (ops.foldl (fun c kv => cacheSet c kv.1 kv.2) c).length
          ≤ cacheMaxKeys := by
      intro ops
      induction ops with
      | nil => intro c h; simpa using h
      | cons kv ops ih =>
        intro c h
        exact ih _ (cacheSet_length_le _ _ _ h)
    intro ops
    exact hgen ops cacheEmpty (by simp [cacheEmpty])
  · intro c k v hlen hnot
    have hany : List.any c (fun e => e.1 = k) = false := by
      rw [List.any_eq_false]
      intro e he
      simpa using hnot e he
    have heq : cacheSet c k v = c.tail ++ [(k, v)] := by
      unfold cacheSet
      rw [hany]
      simp only [Bool.false_eq_true, if_false]
      rw [if_neg (by rw [hlen]; exact Nat.lt_irrefl _)]
    refine ⟨heq, ?_, ?_⟩
    · rw [heq]
      simp only [List.length_append, List.length_tail, List.length_cons,
        List.length_nil]
      unfold cacheMaxKeys at hlen ⊢
      omega
    · rw [heq]
      exact cacheGet_append_single c.tail k v
        (fun e he => hnot e (List.mem_of_mem_tail he))

/-- A full cache holding 1000 entries, none keyed `"b"`. -/
def fullCache : CacheState := List.replicate cacheMaxKeys ("a", [])

/-- Witness for C3: setting the fresh key `"b"` in the full cache drops
the oldest entry, stays at 1000 keys, and stores the new value. -/
theorem cache_capacity_evicts_oldest_witness :
    cacheSet fullCache "b" [] = fullCache.tail ++ [("b", [])]
      ∧ (cacheSet fullCache "b" []).length = cacheMaxKeys
      ∧ cacheGet (cacheSet fullCache "b" []) "b" = some [] :=
  cache_capacity_evicts_oldest.2 fullCache "b" []
    (by simp [fullCache])
    (by simp [fullCache, List.mem_replicate])

/-! ## C4: the cache key separator -/

/-- After an in-place replacement of key `k`, a lookup for `k` finds
the new value. -/
theorem cacheGet_map_replace (c : CacheState) (k : String)
    (v : List OrderSummary) (h : List.any c (fun e => e.1 = k) = true) :
    cacheGet (c.map (fun e => if e.1 = k then (k, v) else e)) k = some v := by
  induction c with
  | nil => simp at h
  | cons e es ih =>
    by_cases he : e.1 = k
    · rw [List.map_cons, if_pos he]
      unfold cacheGet
      rw [List.find?_cons_of_pos _ (by simp)]
      rfl
    · rw [List.map_cons, if_neg he]
      unfold cacheGet at ih ⊢
      rw [List.find?_cons_of_neg _ (by simpa using he)]
      exact ih (by simpa [he] using h)

/-- After any `cacheSet c k v`, looking up `k` yields `v`. -/
theorem cacheGet_cacheSet_self (c : CacheState) (k : String)
    (v : List OrderSummary) : cacheGet (cacheSet c k v) k = some v := by
  unfold cacheSet
  split_ifs with h1 h2
  · exact cacheGet_map_replace c k v h1
  · refine cacheGet_append_single c k v ?_
    intro e he
    have hfalse : List.any c (fun e => e.1 = k) = false :=
      Bool.eq_false_iff.mpr h1
    simpa using List.any_eq_false.mp hfalse e he
  · refine cacheGet_append_single c.tail k v ?_
    intro e he
    have hfalse : List.any c (fun e => e.1 = k) = false :=
      Bool.eq_false_iff.mpr h1
    simpa using List.any_eq_false.mp hfalse e (List.mem_of_mem_tail he)

/-- Email strategy stub: one order for contact `"a"`. -/
def stubEmailStrategy : String → Option (List OrderSummary) :=
  fun info =>
    if info = "a" then some [normalizeRestOrder sampleRestOrder] else none

/-- Phone strategy stub: always fails. -/
def stubPhoneStrategy : String → Option (List OrderSummary) :=
  fun _ => none

/-- C4 counterexample: after a successful email lookup for contact
`"a"`, nothing is stored under the claimed colon key `"email:a"`; the
result sits under the hyphen key `"email-a"` (app.js:266 joins with
`"-"`, not `":"`). -/
theorem cache_key_colon_cex :
    cacheGet (handleGetOrders cacheEmpty "email" "a"
        stubEmailStrategy stubPhoneStrategy).cache ("email" ++ ":" ++ "a")
      = none
    ∧ cacheGet (handleGetOrders cacheEmpty "email" "a"
        stubEmailStrategy stubPhoneStrategy).cache ("email" ++ "-" ++ "a")
      = some [normalizeRestOrder sampleRestOrder] := by
  constructor <;> decide

/-- C4 (amended): for every lookup, both the cache read and the cache
write use the key `contact_type ++ "-" ++ contact_info` (case-sensitive
concatenation with a hyphen): a cached value under that key is returned
as a hit with no upstream call, and a successful uncached lookup —
email or phone — of at most 1000 orders stores its result under that
key. -/
theorem cache_key_dash :
    ∀ (c : CacheState) (ct ci : String)
      (es ps : String → Option (List OrderSummary))
      (orders : List OrderSummary),
      (cacheGet c (ct ++ "-" ++ ci) = some orders →
        handleGetOrders c ct ci es ps
          = ⟨HttpResponse.ok orders, c, false⟩) ∧
      (cacheGet c (ct ++ "-" ++ ci) = none →
        ((ct = "email" ∧ es ci = some orders) ∨
          (ct = "phone" ∧ ps ci = some orders)) →
        orders.length ≤ 1000 →
        cacheGet (handleGetOrders c ct ci es ps).cache (ct ++ "-" ++ ci)
          = some orders) := by
  intro c ct ci es ps orders
  constructor
  · intro h
    simp only [handleGetOrders, cacheKey]
    rw [h]
  · intro hmiss hstrat hlen
    rcases hstrat with ⟨hct, hes⟩ | ⟨hct, hps⟩
    · subst hct
      simp only [handleGetOrders, cacheKey]
      rw [hmiss]
      simp only [if_true]
      rw [hes]
      dsimp only
      rw [if_pos hlen]
      exact cacheGet_cacheSet_self c _ orders
    · subst hct
      simp only [handleGetOrders, cacheKey]
      rw [hmiss]
      rw [if_neg (by decide)]
      simp only [if_true]
      rw [hps]
      dsimp only
      rw [if_pos hlen]
      exact cacheGet_cacheSet_self c _ orders

/-- Phone strategy stub: one order for contact `"7"`. -/
def stubPhoneLookup : String → Option (List OrderSummary) :=
  fun info =>
    if info = "7"
      then some [normalizeGraphOrder ⟨noStatusOrder, "Ann Lee", none⟩]
      else none

/-- Witness for C4 (amended): a pre-populated hyphen key is returned as
a hit, and concrete email and phone lookups each store their result
under the hyphen key. -/
theorem cache_key_dash_witness :
    handleGetOrders [("email-a", [])] "email" "a"
        stubEmailStrategy stubPhoneStrategy
      = ⟨HttpResponse.ok [], [("email-a", [])], false⟩
    ∧ cacheGet (handleGetOrders cacheEmpty "email" "a"
        stubEmailStrategy stubPhoneStrategy).cache ("email" ++ "-" ++ "a")
      = some [normalizeRestOrder sampleRestOrder]
    ∧ cacheGet (handleGetOrders cacheEmpty "phone" "7"
        stubEmailStrategy stubPhoneLookup).cache ("phone" ++ "-" ++ "7")
      = some [normalizeGraphOrder ⟨noStatusOrder, "Ann Lee", none⟩] :=
  ⟨(cache_key_dash [("email-a", [])] "email" "a" stubEmailStrategy
      stubPhoneStrategy []).1 (by decide),
   (cache_key_dash cacheEmpty "email" "a" stubEmailStrategy
      stubPhoneStrategy [normalizeRestOrder sampleRestOrder]).2 rfl
     (Or.inl ⟨rfl, by decide⟩) (by decide),
   (cache_key_dash cacheEmpty "phone" "7" stubEmailStrategy
      stubPhoneLookup [normalizeGraphOrder ⟨noStatusOrder, "Ann Lee", none⟩]).2
     rfl (Or.inr ⟨rfl, by decide⟩) (by decide)⟩

/-! ## C6: oversized results bypass the cache -/

/-- C6: a lookup whose strategy yields more than 1000 orders succeeds
and returns the full result with the cache left untouched (the guard at
app.js:286 skips the write), so an identical second lookup calls
upstream again instead of hitting the cache. -/
theorem oversized_result_not_cached :
    ∀ (c : CacheState) (ct ci : String)
      (es ps : String → Option (List OrderSummary))
      (orders : List OrderSummary),
      cacheGet c (cacheKey ct ci) = none →
      ((ct = "email" ∧ es ci = some orders) ∨
        (ct = "phone" ∧ ps ci = some orders)) →
      1000 < orders.length →
      handleGetOrders c ct ci es ps = ⟨HttpResponse.ok orders, c, true⟩
        ∧ (handleGetOrders (handleGetOrders c ct ci es ps).cache ct ci
            es ps).upstreamCalled = true := by
  intro c ct ci es ps orders hmiss hstrat hlen
  have hmain : handleGetOrders c ct ci es ps
      = ⟨HttpResponse.ok orders, c, true⟩ := by
    rcases hstrat with ⟨hct, hes⟩ | ⟨hct, hps⟩
    · subst hct
      simp only [handleGetOrders]
      rw [hmiss]
      simp only [if_true]
      rw [hes]
      dsimp only
      rw [if_neg (by omega)]
    · subst hct
      simp only [handleGetOrders]
      rw [hmiss]
      rw [if_neg (by decide)]
      simp only [if_true]
      rw [hps]
      dsimp only
      rw [if_neg (by omega)]
  refine ⟨hmain, ?_⟩
  rw [hmain]
  dsimp only
  rw [hmain]

/-- 1001 copies of a normalized order: an oversized lookup result. -/
def bigOrders : List OrderSummary :=
  List.replicate 1001 (normalizeGraphOrder ⟨noStatusOrder, "A", none⟩)

/-- Email strategy stub returning the oversized result for `"big"`. -/
def bigEmailStrategy : String → Option (List OrderSummary) :=
  fun info => if info = "big" then some bigOrders else none

/-- Witness for C6: the oversized lookup for `"big"` returns all 1001
orders, leaves the cold cache cold, and the identical follow-up lookup
goes upstream again. -/
theorem oversized_result_not_cached_witness :
    handleGetOrders cacheEmpty "email" "big" bigEmailStrategy
        stubPhoneStrategy = ⟨HttpResponse.ok bigOrders, cacheEmpty, true⟩
      ∧ (handleGetOrders (handleGetOrders cacheEmpty "email" "big"
            bigEmailStrategy stubPhoneStrategy).cache "email" "big"
          bigEmailStrategy stubPhoneStrategy).upstreamCalled = true :=
  oversized_result_not_cached cacheEmpty "email" "big" bigEmailStrategy
    stubPhoneStrategy bigOrders rfl (Or.inl ⟨rfl, rfl⟩)
    (by simp only [bigOrders, List.length_replicate]; omega)

/-! ## C7: invalid contact_type -/

/-- Email strategy stub for the C7 counterexample: one order for the
contact `"-x"`. -/
def collidingStrategy : String → Option (List OrderSummary) :=
  fun info =>
    if info = "-x" then some [normalizeRestOrder sampleRestOrder] else none

/-- Cache state after the valid lookup `("email", "-x")`: it stores the
result under the key `"email--x"`. -/
def collidedCache : CacheState :=
  (handleGetOrders cacheEmpty "email" "-x" collidingStrategy
    stubPhoneStrategy).cache

/-- C7 counterexample: the route consults the cache before validating
`contact_type` (app.js:269 before app.js:276), and the hyphen key is
ambiguous, so the invalid contact_type `"email-"` with contact `"x"`
computes the same key `"email--x"` as the earlier valid lookup
`("email", "-x")`, hits the cache, and answers 200 instead of 400. -/
theorem invalid_contact_type_cex :
    ("email-" ≠ "email" ∧ "email-" ≠ "phone")
      ∧ (handleGetOrders collidedCache "email-" "x" collidingStrategy
          stubPhoneStrategy).response ≠ HttpResponse.badRequest := by
  refine ⟨⟨?_, ?_⟩, ?_⟩ <;> decide

/-- C7 (amended): for every contact_type outside {"email","phone"} no
upstream call is ever made, and whenever the cache holds no entry under
the computed key the request fails with 400, leaving the cache
unchanged.  (Because the cache is consulted before validation, a cached
entry under a colliding key is instead returned as a 200 hit.) -/
theorem invalid_contact_type_rejected :
    ∀ (c : CacheState) (ct ci : String)
      (es ps : String → Option (List OrderSummary)),
      ct ≠ "email" → ct ≠ "phone" →
      (handleGetOrders c ct ci es ps).upstreamCalled = false
        ∧ (cacheGet c (cacheKey ct ci) = none →
            handleGetOrders c ct ci es ps
              = ⟨HttpResponse.badRequest, c, false⟩) := by
  intro c ct ci es ps hemail hphone
  have hbad : ∀ hm : cacheGet c (cacheKey ct ci) = none,
      handleGetOrders c ct ci es ps
        = ⟨HttpResponse.badRequest, c, false⟩ := by
    intro hm
    simp only [handleGetOrders]
    rw [hm]
    dsimp only
    rw [if_neg hemail, if_neg hphone]
  constructor
  · cases hm : cacheGet c (cacheKey ct ci) with
    | some v =>
      simp only [handleGetOrders]
      rw [hm]
    | none => rw [hbad hm]
  · exact hbad

/-- Witness for C7 (amended) at the invalid contact_type `"fax"` on a
cold cache: 400, no upstream call, cache unchanged. -/
theorem invalid_contact_type_rejected_witness :
    (handleGetOrders cacheEmpty "fax" "123" stubEmailStrategy
        stubPhoneStrategy).upstreamCalled = false
      ∧ handleGetOrders cacheEmpty "fax" "123" stubEmailStrategy
          stubPhoneStrategy = ⟨HttpResponse.badRequest, cacheEmpty, false⟩ :=
  ⟨(invalid_contact_type_rejected cacheEmpty "fax" "123" stubEmailStrategy
      stubPhoneStrategy (by decide) (by decide)).1,
   (invalid_contact_type_rejected cacheEmpty "fax" "123" stubEmailStrategy
      stubPhoneStrategy (by decide) (by decide)).2 rfl⟩

/-! ## C10: the phone query fetches at most 10 line items per order -/

/-- `sortOrdersDesc` permutes its input: membership is unchanged. -/
theorem mem_sortOrdersDesc {z : EnrichedOrder} {l : List EnrichedOrder} :
    z ∈ sortOrdersDesc l ↔ z ∈ l := by
  induction l with
  | nil => simp [sortOrdersDesc]
  | cons x xs ih => rw [sortOrdersDesc, mem_insertDesc, ih, List.mem_cons]

/-- C10: every order a phone lookup returns carries at most 10 line
items — the graph query requests `lineItems(first: 10)` (app.js:179) —
and its `items_count` sums the quantities of exactly those fetched
(first 10) entries of the upstream order, regardless of how many line
items the order has upstream. -/
theorem phone_line_items_truncated :
    ∀ (store : PhoneStore) (s : OrderSummary),
      s ∈ searchOrdersByPhone store →
      s.line_items.length ≤ 10
        ∧ ∃ ce ∈ store, ∃ o ∈ ce.2,
            s.line_items
              = (o.lineItems.take 10).map
                  (fun item => ⟨item.name, item.quantity, item.price⟩)
              ∧ s.items_count
                = ((o.lineItems.take 10).map
                    (fun item => item.quantity)).sum := by
  intro store s hs
  unfold searchOrdersByPhone at hs
  rcases List.mem_map.mp hs with ⟨e, he, rfl⟩
  have he' : e ∈ aggregateOrders store := mem_sortOrdersDesc.mp he
  unfold aggregateOrders at he'
  rcases List.mem_flatMap.mp he' with ⟨ce, hce, hem⟩
  rcases List.mem_map.mp hem with ⟨o', ho', rfl⟩
  unfold runOrderQuery at ho'
  rcases List.mem_map.mp ho' with ⟨o, ho, rfl⟩
  constructor
  · show ((o.lineItems.take 10).map _).length ≤ 10
    rw [List.length_map, List.length_take]
    exact Nat.min_le_left 10 _
  · refine ⟨ce, List.mem_of_mem_take hce, o, List.mem_of_mem_take ho,
      rfl, ?_⟩
    show (o.lineItems.take 10).foldl (fun sum item => sum + item.quantity) 0
      = ((o.lineItems.take 10).map (fun item => item.quantity)).sum
    rw [foldl_add_eq_sum_map]
    simp

/-- Graph order with 12 upstream line items, more than the query
fetches. -/
def longOrder : GraphOrder :=
  { noStatusOrder with
      lineItems := (List.range 12).map (fun i => ⟨"it", i + 1, "1.00"⟩) }

/-- Store with one customer owning `longOrder`. -/
def longStore : PhoneStore := [(⟨"g", "C", none⟩, [longOrder])]

/-- The summary the phone lookup produces for `longOrder`: only the
first 10 line items survive the query. -/
def longSummary : OrderSummary :=
  normalizeGraphOrder
    ⟨{ longOrder with
        lineItems := longOrder.lineItems.take 10,
        fulfillments := longOrder.fulfillments.take 1 }, "C", none⟩

/-- Witness for C10: the 12-line-item order comes back with 10 line
items whose quantities 1..10 sum to `items_count = 55`. -/
theorem phone_line_items_truncated_witness :
    longSummary.line_items.length ≤ 10
      ∧ ∃ ce ∈ longStore, ∃ o ∈ ce.2,
          longSummary.line_items
            = (o.lineItems.take 10).map
                (fun item => ⟨item.name, item.quantity, item.price⟩)
            ∧ longSummary.items_count
              = ((o.lineItems.take 10).map
                  (fun item => item.quantity)).sum :=
  phone_line_items_truncated longStore longSummary (by decide)
